import Mathlib

/-!
Verification of the `hello_egui` repository: a shallow embedding of the
`egui_flex` row-layout / item-placement engine
(`crates/egui_flex/src/lib.rs`) and of the `egui_dnd` slice-shifting helper
(`src/lib.rs`), with theorems about the layout algorithm, grow
distribution, cross-axis distribution, pass-stability signalling, the
`shift_vec` helper and the coordinate rounding function.

Scalar sizes are modelled by `ℚ` (exact arithmetic); where a claim is
genuinely about IEEE-754 `f32` behaviour (the rounding function) a
faithful binary32 round-to-nearest model over `ℚ` is used.
-/

namespace EguiFlex

/-- Model of `egui::Vec2` (also used for `Pos2`): a pair of scalars,
indexable by an axis index `Fin 2` exactly like `Vec2: Index<usize>`. -/
structure Vec2 where
  x : ℚ
  y : ℚ
deriving DecidableEq, Repr

instance : Add Vec2 := ⟨fun a b => ⟨a.x + b.x, a.y + b.y⟩⟩

instance : Inhabited Vec2 := ⟨⟨0, 0⟩⟩

/-- Indexing `v[i]` for `i : usize` restricted to the two axes. -/
def Vec2.get (v : Vec2) (i : Fin 2) : ℚ :=
  if i.val = 0 then v.x else v.y

/-- Assignment `v[i] = a` on one axis. -/
def Vec2.set (v : Vec2) (i : Fin 2) (a : ℚ) : Vec2 :=
  if i.val = 0 then { v with x := a } else { v with y := a }

/-- The cross axis: `1 - direction` in the source. -/
def other (d : Fin 2) : Fin 2 := ⟨1 - d.val, by omega⟩

/-- Model of `egui::Margin`. -/
structure Margin where
  top : ℚ
  left : ℚ
  bottom : ℚ
  right : ℚ
deriving DecidableEq, Repr

/-- Model of `Margin::sum`: `vec2(left + right, top + bottom)`. -/
def Margin.sum (m : Margin) : Vec2 := ⟨m.left + m.right, m.top + m.bottom⟩

/-- Model of `egui::Align` (used by `Align2`). -/
inductive Align where
  | Min
  | Center
  | Max
deriving DecidableEq, Repr

/-- Model of `egui::Align2`: one `Align` per axis. -/
def Align2 := Align × Align
deriving instance DecidableEq, Repr for Align2

/-- The `FlexDirection` enum from the source. -/
inductive FlexDirection where
  | Horizontal
  | Vertical
deriving DecidableEq, Repr

/-- The `FlexJustify` enum from the source. -/
inductive FlexJustify where
  | Start
  | End
  | Center
  | SpaceBetween
  | SpaceAround
  | SpaceEvenly
deriving DecidableEq, Repr

/-- The `FlexAlign` enum from the source. -/
inductive FlexAlign where
  | Start
  | End
  | Center
  | Stretch
deriving DecidableEq, Repr

/-- The `FlexAlignContent` enum from the source. Only `Normal` and `Stretch` are
implemented by the layout code. -/
inductive FlexAlignContent where
  | Normal
  | Start
  | End
  | Center
  | Stretch
  | SpaceBetween
  | SpaceAround
deriving DecidableEq, Repr

/-- The `FlexItem` record: per-item layout configuration. -/
structure FlexItem where
  grow : Option ℚ
  basis : Option ℚ
  align_self : Option FlexAlign
  align_content : Option Align2
deriving DecidableEq, Repr

instance : Inhabited FlexItem := ⟨⟨none, none, none, none⟩⟩

/-- The `Flex` record: the container configuration. `id_salt` is modelled as an
opaque numeric key. -/
structure Flex where
  id_salt : Option ℕ
  direction : FlexDirection
  justify : FlexJustify
  align_content : FlexAlignContent
  gap : Option Vec2
  default_item : FlexItem
  wrap : Bool
deriving DecidableEq, Repr

/-- The `ItemState` record: the per-item measured state persisted across passes. -/
structure ItemState where
  id : ℕ
  config : FlexItem
  inner_size : Vec2
  inner_min_size : Vec2
  margin : Margin
  remeasure_widget : Bool
deriving DecidableEq, Repr

/-- Model of `ItemState::min_size_with_margin`: `inner_min_size + margin.sum()`. -/
def ItemState.min_size_with_margin (s : ItemState) : Vec2 :=
  s.inner_min_size + s.margin.sum

/-- The `FlexState` record: the persisted container snapshot. -/
structure FlexState where
  items : List ItemState
  max_item_size : Vec2
deriving DecidableEq, Repr

instance : Inhabited FlexState := ⟨⟨[], ⟨0, 0⟩⟩⟩

/-- Model of `egui::Rect` as min/max corners. -/
structure Rect where
  min : Vec2
  max : Vec2
deriving DecidableEq, Repr

/-- Model of `Rect::from_min_size`. -/
def Rect.from_min_size (min size : Vec2) : Rect := ⟨min, min + size⟩

/-- The `RowData` record: the per-row aggregation rebuilt every pass. -/
structure RowData where
  items : List ItemState
  total_size : ℚ
  total_grow : ℚ
  extra_space : ℚ
  cross_size : ℚ
  cross_size_with_extra_space : ℚ
  rect : Option Rect
  final_rect : Option Rect
deriving DecidableEq, Repr

/-- Model of `RowData::default()`: all fields zero / empty / absent. -/
instance : Inhabited RowData := ⟨⟨[], 0, 0, 0, 0, 0, none, none⟩⟩

/-- The per-item main-axis footprint used by `layout_rows`
(lines 348-353): the basis plus the main-axis margin when a basis is
configured, else the measured minimum size including margin. -/
def code_footprint (direction : Fin 2) (item : ItemState) : ℚ :=
  match item.config.basis with
  | some basis => basis + (item.margin.sum).get direction
  | none => (item.min_size_with_margin).get direction

/-- The footprint as worded by the specification sentence: the bare basis
when one is configured, else the measured minimum size including margin. -/
def claimed_footprint (direction : Fin 2) (item : ItemState) : ℚ :=
  match item.config.basis with
  | some basis => basis
  | none => (item.min_size_with_margin).get direction

/-- Pushing one item into the current row (`layout_rows` lines 362-370):
accumulate the footprint, a gap when the row was nonempty, the grow
factor, the item itself, and the running max of cross sizes. -/
def row_push (cross_direction : Fin 2) (gap_direction item_length : ℚ)
    (item : ItemState) (r : RowData) : RowData :=
  let ts := r.total_size + item_length
  let ts := if r.items ≠ [] then ts + gap_direction else ts
  let cs :=
    if (item.min_size_with_margin).get cross_direction > r.cross_size then
      (item.min_size_with_margin).get cross_direction
    else r.cross_size
  { r with
    total_size := ts
    total_grow := r.total_grow + item.config.grow.getD 0
    items := r.items ++ [item]
    cross_size := cs }

/-- The partition loop of `layout_rows` (lines 345-375): greedily fill the
current row, closing it before an item exactly when the footprint plus gap
plus the accumulated size overflows and the row is nonempty and wrapping
is on; finally push the last row when nonempty. -/
def layout_rows_loop (wrap : Bool) (available_length gap_direction : ℚ)
    (direction : Fin 2) :
    List ItemState → List RowData → RowData → List RowData
  | [], rows, current_row =>
    if current_row.items ≠ [] then rows ++ [current_row] else rows
  | item :: rest, rows, current_row =>
    let item_length := code_footprint direction item
    if item_length + gap_direction + current_row.total_size > available_length
        ∧ current_row.items ≠ [] ∧ wrap = true then
      layout_rows_loop wrap available_length gap_direction direction rest
        (rows ++ [current_row])
        (row_push (other direction) gap_direction item_length item default)
    else
      layout_rows_loop wrap available_length gap_direction direction rest
        rows
        (row_push (other direction) gap_direction item_length item current_row)

/-- The rect-assignment walk of `layout_rows` (lines 396-412): stack rows
along the cross axis, recording the cross size with extra space, the row
rectangle and the main-axis slack. -/
def assign_rects (available_length extra_cross_space_per_row : ℚ)
    (gap : Vec2) (direction : Fin 2) :
    List RowData → Vec2 → List RowData
  | [], _ => []
  | row :: rest, row_position =>
    let cross_direction := other direction
    let row_size :=
      ((⟨0, 0⟩ : Vec2).set direction available_length).set cross_direction
        (row.cross_size + extra_cross_space_per_row)
    let row' :=
      { row with
        cross_size_with_extra_space := row_size.get cross_direction
        rect := some (Rect.from_min_size row_position row_size)
        extra_space := available_length - row.total_size }
    row' :: assign_rects available_length extra_cross_space_per_row gap
      direction rest
      (row_position.set cross_direction
        (row_position.get cross_direction + row_size.get cross_direction
          + gap.get cross_direction))

/-- Model of `Flex::layout_rows` (lines 332-414): partition the items of the previous pass into rows, compute the per-row extra cross space from the
align-content policy, then assign row rectangles. -/
def Flex.layout_rows (self : Flex) (state : FlexState)
    (available_size gap : Vec2) (direction : Fin 2) (min_position : Vec2) :
    List RowData :=
  let cross_direction := other direction
  let available_length := available_size.get direction
  let gap_direction := gap.get direction
  let rows :=
    layout_rows_loop self.wrap available_length gap_direction direction
      state.items [] default
  let available_cross_size := available_size.get cross_direction
  let total_row_cross_size := (rows.map (fun r => r.cross_size)).sum
  let extra_cross_space_per_row : ℚ :=
    match self.align_content with
    | FlexAlignContent.Normal => 0
    | FlexAlignContent.Stretch =>
      let extra_cross_space :=
        max (available_cross_size - total_row_cross_size
          - (((max rows.length 1 - 1 : ℕ) : ℚ) * gap.get cross_direction)) 0
      extra_cross_space / (rows.length : ℚ)
    | _ => 0
  assign_rects available_length extra_cross_space_per_row gap direction rows
    min_position

/-- The row partition exactly as the specification words it: a greedy
left-to-right fill over an abstract footprint function, tracking the
accumulated row size, starting a new row before an item exactly when
wrapping is enabled, the row is nonempty, and footprint + gap +
accumulated size exceed the available length. -/
def greedy_loop (wrap : Bool) (available_length gap : ℚ)
    (footprint : ItemState → ℚ) :
    List ItemState → List (List ItemState) → List ItemState → ℚ →
    List (List ItemState)
  | [], done, cur, _ => if cur ≠ [] then done ++ [cur] else done
  | item :: rest, done, cur, accumulated =>
    if wrap = true ∧ cur ≠ []
        ∧ footprint item + gap + accumulated > available_length then
      greedy_loop wrap available_length gap footprint rest (done ++ [cur])
        [item] (footprint item)
    else
      greedy_loop wrap available_length gap footprint rest done
        (cur ++ [item])
        (accumulated + footprint item + if cur ≠ [] then gap else 0)

/-- Entry point of the specification-worded greedy partition. -/
def greedy_rows (wrap : Bool) (available_length gap : ℚ)
    (footprint : ItemState → ℚ) (items : List ItemState) :
    List (List ItemState) :=
  greedy_loop wrap available_length gap footprint items [] [] 0

/-- The grow-extra computation of `FlexInstance::add_container`
(lines 528-537): `max(row.extra_space * grow / row.total_grow, 0)` when
the item grows and the row has positive total grow, else `0`. -/
def extra_length (item_state : ItemState) (row : RowData) : ℚ :=
  if item_state.config.grow.getD 0 > 0 ∧ row.total_grow > 0 then
    max (row.extra_space * item_state.config.grow.getD 0 / row.total_grow) 0
  else 0

/-- The outer frame size computation of `FlexInstance::add_container`
(lines 541-554): start from the measured minimum size with margin,
override the main axis with basis plus margin when a basis is set, add the
grow extra, and clamp the main axis to the available size when the row
holds exactly one item. -/
def item_total_size (item : FlexItem) (item_state : ItemState)
    (row : RowData) (available_size : Vec2) (direction : Fin 2) : Vec2 :=
  let extra_len := extra_length item_state row
  let total_size := item_state.min_size_with_margin
  let total_size :=
    match item.basis with
    | some basis =>
      total_size.set direction (basis + (item_state.margin.sum).get direction)
    | none => total_size
  let total_size :=
    total_size.set direction (total_size.get direction + extra_len)
  if row.items.length = 1 then
    total_size.set direction
      (min (total_size.get direction) (available_size.get direction))
  else total_size

/-- The pass-control requests a container pass can emit. -/
structure PassRequests where
  discard : Bool
  repaint : Bool
deriving DecidableEq, Repr

/-- The reconciliation step at the end of `Flex::show_inside`
(lines 305-327): the freshly built snapshot is compared with the persisted
one; on any difference the pass is asked to be discarded and a repaint is
scheduled. -/
def show_inside_signals (previous_state built_state : FlexState) :
    PassRequests :=
  if previous_state ≠ built_state then ⟨true, true⟩ else ⟨false, false⟩

/-- The tail of `Flex::show_inside`: the closure result is returned to the
caller unconditionally, alongside whatever pass-control requests the
snapshot comparison produced. -/
def show_inside_pass {R : Type} (previous_state built_state : FlexState)
    (result : R) : R × PassRequests :=
  (result, show_inside_signals previous_state built_state)

/-- Outcome of reading the item state at the cursor in
`FlexInstance::add_container`. -/
inductive FetchResult where
  | item (it : ItemState)
  | fallback
  | panic
deriving DecidableEq, Repr

/-- The cursor read of `FlexInstance::add_container` (lines 520-526 and
639-657): a row cursor past the computed rows takes the graceful invisible
placeholder branch; within an existing row, the item index is read with
`.unwrap()`, an assertion failure when it is out of bounds. -/
def fetch_cursor_item (rows : List RowData)
    (current_row current_row_index : ℕ) : FetchResult :=
  match rows.get? current_row with
  | none => FetchResult.fallback
  | some row =>
    match row.items.get? current_row_index with
    | some it => FetchResult.item it
    | none => FetchResult.panic

/-! Concrete fixtures used to instantiate the theorems below. -/

/-- An item state with a given basis, grow factor and horizontal margins,
and measured sizes of zero. -/
def mk_item (basis grow : Option ℚ) (mleft mright : ℚ)
    (msize : Vec2 := ⟨0, 0⟩) : ItemState :=
  { id := 0
    config := { grow := grow, basis := basis, align_self := none,
                align_content := none }
    inner_size := msize
    inner_min_size := msize
    margin := ⟨0, mleft, 0, mright⟩
    remeasure_widget := false }

/-- A wrapping horizontal container with align-content `Normal`. -/
def flex_wrap : Flex :=
  { id_salt := none, direction := FlexDirection.Horizontal,
    justify := FlexJustify.Start, align_content := FlexAlignContent.Normal,
    gap := none, default_item := default, wrap := true }

/-- The same container with wrapping disabled. -/
def flex_nowrap : Flex := { flex_wrap with wrap := false }

/-- The same container with align-content `Stretch`. -/
def flex_stretch : Flex :=
  { flex_wrap with align_content := FlexAlignContent.Stretch }

/-- Two items with basis 45 and a horizontal margin of 5 on each side. -/
def st_two_basis : FlexState :=
  ⟨[mk_item (some 45) none 5 5, mk_item (some 45) none 5 5], ⟨0, 0⟩⟩

/-- A single unconfigured item measured at 7 × 5. -/
def st_single : FlexState := ⟨[mk_item none none 0 0 ⟨7, 5⟩], ⟨0, 0⟩⟩

/-- A row holding one growing item but a negative main-axis slack. -/
def row_neg : RowData :=
  ⟨[mk_item none (some 1) 0 0], 0, 1, -10, 0, 0, none, none⟩

/-- A row with two growing items (factors 1 and 3) and slack 8. -/
def row_grow : RowData :=
  ⟨[mk_item none (some 1) 0 0, mk_item none (some 3) 0 0],
    0, 4, 8, 0, 0, none, none⟩

/-- The row produced by `flex_stretch` on `st_single` with available size
100 × 60, gap 10 × 10, direction 0 and origin 0 × 0. -/
def row_c4 : RowData :=
  ⟨[mk_item none none 0 0 ⟨7, 5⟩], 7, 0, 93, 5, 60,
    some ⟨⟨0, 0⟩, ⟨100, 60⟩⟩, none⟩

end EguiFlex

namespace EguiDnd

/-- Model of `utils::shift_vec` from `egui_dnd` (src/lib.rs lines 45-58), with the
panic modelled as `none`.  `vec.get_mut(a..b)` succeeds iff `a ≤ b ∧
b ≤ len`; `vec.get_mut(a..=b)` succeeds iff `a ≤ b + 1 ∧ b + 1 ≤ len`;
the matched sub-slice is rotated by `1.min(slice.len())`, left for the
first branch and right for the second. -/
def shift_vec {α : Type} (source_idx target_idx : ℕ) (vec : List α) :
    Option (List α) :=
  if source_idx ≤ target_idx ∧ target_idx ≤ vec.length then
    let slice := (vec.drop source_idx).take (target_idx - source_idx)
    some (vec.take source_idx ++ slice.rotate (min 1 slice.length)
      ++ vec.drop target_idx)
  else if target_idx ≤ source_idx + 1 ∧ source_idx + 1 ≤ vec.length then
    let slice := (vec.drop target_idx).take (source_idx + 1 - target_idx)
    some (vec.take target_idx
      ++ slice.rotate (slice.length - min 1 slice.length)
      ++ vec.drop (source_idx + 1))
  else none

end EguiDnd

namespace F32

/-- The power `2 ^ e` over `ℚ` for an integer exponent. -/
def pow2 (e : ℤ) : ℚ := (2 : ℚ) ^ e

/-- For positive `q`, the exponent `e` with `2 ^ e ≤ q < 2 ^ (e + 1)`,
found from the bit length of `⌊q⌋` (or of `⌈q⁻¹⌉` below one) and a final
adjustment step. -/
def exp2floor (q : ℚ) : ℤ :=
  let e0 : ℤ :=
    if 1 ≤ q then (Nat.log2 (⌊q⌋.toNat) : ℤ)
    else -((Nat.log2 (⌈q⁻¹⌉.toNat) : ℤ))
  if pow2 (e0 + 1) ≤ q then e0 + 1
  else if pow2 e0 ≤ q then e0
  else e0 - 1

/-- Round to nearest integer, ties to even: the IEEE-754 default
rounding applied to a significand. -/
def rne (q : ℚ) : ℤ :=
  let n := ⌊q⌋
  let r := q - n
  if r < 1 / 2 then n
  else if 1 / 2 < r then n + 1
  else if n % 2 = 0 then n else n + 1

/-- Round a rational to the nearest IEEE-754 binary32 value (normal
range): keep a 24-bit significand, rounding to nearest, ties to even.
Every `f32` arithmetic operation in the source (`*`, `/`) is the exact
rational result passed through this rounding. -/
def fl (q : ℚ) : ℚ :=
  if q = 0 then 0
  else
    let s : ℚ := if q < 0 then -1 else 1
    let a : ℚ := if q < 0 then -q else q
    let e := exp2floor a
    s * ((rne (a / pow2 (e - 23)) : ℚ) * pow2 (e - 23))

/-- Model of `f32::round`: round to nearest integer, ties away from zero. Its
mathematical result is always exactly representable, so no further
rounding step is needed. -/
def round_half_away (q : ℚ) : ℤ :=
  if 0 ≤ q then ⌊q + 1 / 2⌋ else -⌊-q + 1 / 2⌋

/-- The geometry rounding function `round` of `egui_flex`
(lines 989-999), with each `f32` operation modelled by `fl`:
`(i * PRECISION).round() / PRECISION` with `PRECISION = 1e3`, then the
`i == -0.0` comparison (true for either IEEE zero) normalising to `0.0`.
Both IEEE zeros are represented by the single rational `0`. -/
def round (i : ℚ) : ℚ :=
  let a := fl (i * 1000)
  let b := ((round_half_away a : ℤ) : ℚ)
  let c := fl (b / 1000)
  if c = 0 then 0 else c

/-- The same rounding computation in exact (infinite-precision)
arithmetic: scale by `1e3`, round half away from zero, scale back, and
normalise zero. -/
def round_exact (i : ℚ) : ℚ :=
  let c := ((round_half_away (i * 1000) : ℤ) : ℚ) / 1000
  if c = 0 then 0 else c

end F32

open EguiFlex EguiDnd

/-! Supporting lemmas. -/

theorem Vec2.add_def (a b : Vec2) : a + b = ⟨a.x + b.x, a.y + b.y⟩ := rfl

theorem Vec2.get_set_self (v : Vec2) (i : Fin 2) (a : ℚ) :
    (v.set i a).get i = a := by
  by_cases h : i.val = 0 <;> simp [Vec2.get, Vec2.set, h]

theorem assign_rects_map_items (al e : ℚ) (gap : Vec2) (dir : Fin 2) :
    ∀ (rows : List RowData) (pos : Vec2),
      (assign_rects al e gap dir rows pos).map (fun r => r.items)
        = rows.map (fun r => r.items)
  | [], _ => rfl
  | row :: rest, pos => by
    simp only [assign_rects, List.map_cons]
    exact congrArg _ (assign_rects_map_items al e gap dir rest _)

theorem assign_rects_map_cross (al e : ℚ) (gap : Vec2) (dir : Fin 2) :
    ∀ (rows : List RowData) (pos : Vec2),
      (assign_rects al e gap dir rows pos).map (fun r => r.cross_size)
        = rows.map (fun r => r.cross_size)
  | [], _ => rfl
  | row :: rest, pos => by
    simp only [assign_rects, List.map_cons]
    exact congrArg _ (assign_rects_map_cross al e gap dir rest _)

theorem assign_rects_length (al e : ℚ) (gap : Vec2) (dir : Fin 2)
    (rows : List RowData) (pos : Vec2) :
    (assign_rects al e gap dir rows pos).length = rows.length := by
  have h := assign_rects_map_items al e gap dir rows pos
  have h1 := congrArg List.length h
  simpa using h1

theorem assign_rects_cross_extra (al e : ℚ) (gap : Vec2) (dir : Fin 2) :
    ∀ (rows : List RowData) (pos : Vec2), ∀ r ∈ assign_rects al e gap dir rows pos,
      r.cross_size_with_extra_space = r.cross_size + e
  | [], _ => by intro r hr; simp [assign_rects] at hr
  | row :: rest, pos => by
    intro r hr
    simp only [assign_rects, List.mem_cons] at hr
    rcases hr with rfl | hr
    · simp [Vec2.get_set_self]
    · exact assign_rects_cross_extra al e gap dir rest _ r hr

theorem row_push_items (cd : Fin 2) (g l : ℚ) (item : ItemState)
    (r : RowData) : (row_push cd g l item r).items = r.items ++ [item] := by
  simp [row_push]

theorem row_push_total_size (cd : Fin 2) (g l : ℚ) (item : ItemState)
    (r : RowData) :
    (row_push cd g l item r).total_size
      = r.total_size + l + (if r.items ≠ [] then g else 0) := by
  simp only [row_push]
  split <;> simp

theorem default_row_items : (default : RowData).items = [] := rfl

theorem default_row_total_size : (default : RowData).total_size = 0 := rfl

theorem layout_loop_map_items (w : Bool) (al g : ℚ) (dir : Fin 2) :
    ∀ (items : List ItemState) (rows : List RowData) (cur : RowData),
      (layout_rows_loop w al g dir items rows cur).map (fun r => r.items)
        = greedy_loop w al g (code_footprint dir) items
            (rows.map (fun r => r.items)) cur.items cur.total_size
  | [], rows, cur => by
    simp only [layout_rows_loop, greedy_loop]
    by_cases h : cur.items = [] <;> simp [h]
  | item :: rest, rows, cur => by
    simp only [layout_rows_loop, greedy_loop]
    by_cases hc : code_footprint dir item + g + cur.total_size > al
        ∧ cur.items ≠ [] ∧ w = true
    · rw [if_pos hc, if_pos (by tauto)]
      rw [layout_loop_map_items w al g dir rest]
      simp [row_push_items, row_push_total_size, default_row_items,
        default_row_total_size]
    · rw [if_neg hc, if_neg (by tauto)]
      rw [layout_loop_map_items w al g dir rest]
      rw [row_push_items, row_push_total_size]

theorem greedy_loop_join (w : Bool) (al g : ℚ) (f : ItemState → ℚ) :
    ∀ (items : List ItemState) (done : List (List ItemState))
      (cur : List ItemState) (acc : ℚ),
      (greedy_loop w al g f items done cur acc).flatten
        = done.flatten ++ cur ++ items
  | [], done, cur, acc => by
    simp only [greedy_loop]
    by_cases h : cur = [] <;> simp [h]
  | item :: rest, done, cur, acc => by
    simp only [greedy_loop]
    split
    · rw [greedy_loop_join w al g f rest]
      simp
    · rw [greedy_loop_join w al g f rest]
      simp

theorem layout_loop_nowrap_length (al g : ℚ) (dir : Fin 2) :
    ∀ (items : List ItemState) (rows : List RowData) (cur : RowData),
      (layout_rows_loop false al g dir items rows cur).length
        = rows.length + (if cur.items = [] ∧ items = [] then 0 else 1)
  | [], rows, cur => by
    simp only [layout_rows_loop]
    by_cases h : cur.items = [] <;> simp [h]
  | item :: rest, rows, cur => by
    simp only [layout_rows_loop]
    rw [if_neg (by simp)]
    rw [layout_loop_nowrap_length al g dir rest]
    simp [row_push_items]

/-! Claim theorems. -/

/-- Claim C1 (amended): the row layout algorithm assigns items to rows as
the greedy left-to-right partition over the code footprint — the basis
plus the main-axis margin of the item when a basis is configured, else the
measured minimum size plus margin — starting a new row before an item
exactly when wrap is enabled, the current row is nonempty, and footprint +
gap + accumulated row size exceed the available length; the rows
concatenate back to the original item sequence (contiguous runs, in
order, no backtracking). -/
theorem claim_C1_layout_rows_greedy (self : Flex) (state : FlexState)
    (available_size gap : Vec2) (dir : Fin 2) (pos : Vec2) :
    ((self.layout_rows state available_size gap dir pos).map
        (fun r => r.items)
      = greedy_rows self.wrap (available_size.get dir) (gap.get dir)
          (code_footprint dir) state.items)
    ∧ ((self.layout_rows state available_size gap dir pos).map
        (fun r => r.items)).flatten = state.items := by
  have hmap : (self.layout_rows state available_size gap dir pos).map
      (fun r => r.items)
      = greedy_rows self.wrap (available_size.get dir) (gap.get dir)
          (code_footprint dir) state.items := by
    simp only [Flex.layout_rows]
    rw [assign_rects_map_items]
    rw [layout_loop_map_items]
    simp [greedy_rows, default_row_items, default_row_total_size]
  refine ⟨hmap, ?_⟩
  rw [hmap]
  rw [greedy_rows, greedy_loop_join]
  simp

/-- Claim C1, counterexample to the claim as stated: with two items of
basis 45 and horizontal margins 5 + 5, available length 100 and gap 10,
the algorithm wraps (footprints are 45 + 10 = 55 and 55 + 10 + 55 > 100)
while the greedy partition over the bare-basis footprint worded by the spec keeps
both items in one row (45 + 10 + 45 = 100 ≤ 100). -/
theorem claim_C1_counterexample :
    ((flex_wrap.layout_rows st_two_basis ⟨100, 100⟩ ⟨10, 10⟩ 0 ⟨0, 0⟩).map
        (fun r => r.items))
      ≠ greedy_rows true 100 10 (claimed_footprint 0) st_two_basis.items := by
  norm_num [Flex.layout_rows, layout_rows_loop, assign_rects, row_push,
    code_footprint, claimed_footprint, greedy_rows, greedy_loop,
    ItemState.min_size_with_margin, Margin.sum, Vec2.get, Vec2.set, other,
    flex_wrap, st_two_basis, mk_item, default, Rect.from_min_size]
  simp

/-- Claim C3 (amended): with wrap disabled, the layout produces exactly
one row for every nonempty item sequence, whatever the total of the items in the
main-axis length, the available length and the gap (overflow is
accepted, not rejected). -/
theorem claim_C3_no_wrap_single_row (self : Flex) (state : FlexState)
    (available_size gap : Vec2) (dir : Fin 2) (pos : Vec2)
    (hw : self.wrap = false) (hne : state.items ≠ []) :
    (self.layout_rows state available_size gap dir pos).length = 1 := by
  simp only [Flex.layout_rows]
  rw [assign_rects_length, hw, layout_loop_nowrap_length]
  simp [default_row_items, hne]

/-- Claim C3, counterexample to the claim as stated: on the empty item
sequence the algorithm produces zero rows, not one. -/
theorem claim_C3_counterexample :
    (flex_nowrap.layout_rows ⟨[], ⟨0, 0⟩⟩ ⟨100, 100⟩ ⟨10, 10⟩ 0 ⟨0, 0⟩).length
      ≠ 1 := by
  norm_num [Flex.layout_rows, layout_rows_loop, assign_rects, flex_nowrap,
    flex_wrap, default]

/-- Claim C3 witness: a concrete overflowing two-item sequence with wrap
disabled still yields one row. -/
theorem claim_C3_witness :
    (flex_nowrap.layout_rows st_two_basis ⟨10, 10⟩ ⟨10, 10⟩ 0 ⟨0, 0⟩).length
      = 1 :=
  claim_C3_no_wrap_single_row flex_nowrap st_two_basis ⟨10, 10⟩ ⟨10, 10⟩ 0
    ⟨0, 0⟩ rfl (by simp [st_two_basis])

/-- Claim C4: every row of the computed layout has its cross size with
extra space equal to its cross size plus
`max(0, available_cross − Σ cross − (#rows − 1) · gap) / #rows` under the
`Stretch` align-content policy, and plus `0` under `Normal` and every
other (unimplemented) policy. -/
theorem claim_C4_cross_axis_distribution (self : Flex) (state : FlexState)
    (available_size gap : Vec2) (dir : Fin 2) (pos : Vec2) (row : RowData)
    (hmem : row ∈ self.layout_rows state available_size gap dir pos) :
    row.cross_size_with_extra_space = row.cross_size +
      (if self.align_content = FlexAlignContent.Stretch then
        max 0 (available_size.get (other dir)
          - ((self.layout_rows state available_size gap dir pos).map
              (fun r => r.cross_size)).sum
          - (((self.layout_rows state available_size gap dir pos).length : ℚ)
              - 1) * gap.get (other dir))
          / ((self.layout_rows state available_size gap dir pos).length : ℚ)
      else 0) := by
  simp only [Flex.layout_rows] at hmem ⊢
  set rows0 := layout_rows_loop self.wrap (available_size.get dir)
    (gap.get dir) dir state.items [] default with hrows0
  have hcross := assign_rects_cross_extra (available_size.get dir) _ gap dir
    rows0 pos row hmem
  rw [hcross]
  congr 1
  rw [assign_rects_length, assign_rects_map_cross]
  have hne : rows0 ≠ [] := by
    intro h
    rw [h] at hmem
    simp [assign_rects] at hmem
  have hlen1 : 1 ≤ rows0.length := by
    cases h : rows0 with
    | nil => exact absurd h hne
    | cons a l => simp [h]
  cases self.align_content
  · simp
  · simp
  · simp
  · simp
  · rw [if_pos rfl]
    rw [max_comm]
    rw [Nat.max_eq_left hlen1]
    rw [Nat.cast_sub hlen1]
    simp
  · simp
  · simp

/-- Claim C4 witness: with the `Stretch` policy, a single 7 × 5 item in a
100 × 60 container yields one row whose stretched cross size 60 is its
cross size 5 plus `max(0, 60 − 5 − 0) / 1 = 55`. -/
theorem claim_C4_witness :
    row_c4.cross_size_with_extra_space = row_c4.cross_size +
      (if flex_stretch.align_content = FlexAlignContent.Stretch then
        max 0 ((⟨100, 60⟩ : Vec2).get (other 0)
          - ((flex_stretch.layout_rows st_single ⟨100, 60⟩ ⟨10, 10⟩ 0
              ⟨0, 0⟩).map (fun r => r.cross_size)).sum
          - (((flex_stretch.layout_rows st_single ⟨100, 60⟩ ⟨10, 10⟩ 0
              ⟨0, 0⟩).length : ℚ) - 1) * (⟨10, 10⟩ : Vec2).get (other 0))
          / ((flex_stretch.layout_rows st_single ⟨100, 60⟩ ⟨10, 10⟩ 0
              ⟨0, 0⟩).length : ℚ)
      else 0) :=
  claim_C4_cross_axis_distribution flex_stretch st_single ⟨100, 60⟩
    ⟨10, 10⟩ 0 ⟨0, 0⟩ row_c4 (by
      norm_num [Flex.layout_rows, layout_rows_loop, assign_rects, row_push,
        code_footprint, ItemState.min_size_with_margin, Margin.sum, Vec2.get,
        Vec2.set, Vec2.add_def, other, flex_stretch, flex_wrap, st_single,
        mk_item, default, Rect.from_min_size, row_c4])

/-- Claim C2 (amended): for a row whose total grow factor is the sum of
the grow factors of its items and positive, with all per-item grow factors
nonnegative: when the extra space E of the row is nonnegative, an item with
grow g is allotted exactly `E * g / G` and the allotted extras sum to
exactly E; when E is negative every item is allotted 0. -/
theorem claim_C2_grow_distribution (row : RowData)
    (hsum : row.total_grow
      = (row.items.map (fun it => it.config.grow.getD 0)).sum)
    (hpos : 0 < row.total_grow)
    (hg : ∀ it ∈ row.items, 0 ≤ it.config.grow.getD 0) :
    (0 ≤ row.extra_space →
      (∀ it ∈ row.items, extra_length it row
        = row.extra_space * it.config.grow.getD 0 / row.total_grow)
      ∧ (row.items.map (fun it => extra_length it row)).sum
          = row.extra_space)
    ∧ (row.extra_space < 0 →
      ∀ it ∈ row.items, extra_length it row = 0) := by
  constructor
  · intro hE
    have hitem : ∀ it ∈ row.items, extra_length it row
        = row.extra_space * it.config.grow.getD 0 / row.total_grow := by
      intro it hit
      by_cases hgp : it.config.grow.getD 0 > 0
      · rw [extra_length, if_pos ⟨hgp, hpos⟩]
        exact max_eq_left (div_nonneg (mul_nonneg hE (le_of_lt hgp))
          (le_of_lt hpos))
      · have hz : it.config.grow.getD 0 = 0 :=
          le_antisymm (not_lt.mp hgp) (hg it hit)
        rw [extra_length, hz]
        simp
    refine ⟨hitem, ?_⟩
    rw [List.map_congr_left hitem]
    have hfac : ∀ it ∈ row.items,
        row.extra_space * it.config.grow.getD 0 / row.total_grow
          = (row.extra_space / row.total_grow) * it.config.grow.getD 0 := by
      intro it _
      ring
    rw [List.map_congr_left hfac]
    rw [List.sum_map_mul_left]
    rw [← hsum]
    field_simp
  · intro hE it hit
    by_cases hgp : it.config.grow.getD 0 > 0
    · rw [extra_length, if_pos ⟨hgp, hpos⟩]
      refine max_eq_right ?_
      exact le_of_lt (div_neg_of_neg_of_pos
        (mul_neg_of_neg_of_pos hE hgp) hpos)
    · rw [extra_length, if_neg (by tauto)]

/-- Claim C2, counterexample to the claim as stated: a row with one item
of grow 1, total grow 1 and extra space −10 allots that item 0, not
`E * g / G = −10`, and the allotted extras sum to 0, which is not within
the 1e-3 tolerance of −10. -/
theorem claim_C2_counterexample :
    0 < row_neg.total_grow
    ∧ extra_length (mk_item none (some 1) 0 0) row_neg
        ≠ row_neg.extra_space * 1 / row_neg.total_grow
    ∧ ¬ (|(row_neg.items.map (fun it => extra_length it row_neg)).sum
          - row_neg.extra_space| ≤ 1 / 1000) := by
  norm_num [extra_length, row_neg, mk_item, abs]

/-- Claim C2 witness: a row with grows 1 and 3, total grow 4 and extra
space 8 distributes exactly 2 and 6, summing to the full 8. -/
theorem claim_C2_witness :
    (row_grow.items.map (fun it => extra_length it row_grow)).sum
      = row_grow.extra_space :=
  ((claim_C2_grow_distribution row_grow
    (by norm_num [row_grow, mk_item])
    (by norm_num [row_grow])
    (by intro it hit
        simp only [row_grow, List.mem_cons, List.mem_singleton] at hit
        rcases hit with rfl | rfl | h
        · norm_num [mk_item]
        · norm_num [mk_item]
        · simp at h)).1
    (by norm_num [row_grow])).2

/-- Claim C5: in item placement, the computed main-axis length — the
basis-or-min-size (with margin) plus the grow extra — is clamped to the
currently available main-axis length exactly when the row holds a single
item; rows of two or more items get no clamp. -/
theorem claim_C5_single_item_clamp (item : FlexItem)
    (item_state : ItemState) (row : RowData) (available_size : Vec2)
    (dir : Fin 2) :
    (row.items.length = 1 →
      (item_total_size item item_state row available_size dir).get dir
        = min ((match item.basis with
              | some basis => basis + (item_state.margin.sum).get dir
              | none => (item_state.min_size_with_margin).get dir)
            + extra_length item_state row) (available_size.get dir)
      ∧ (item_total_size item item_state row available_size dir).get dir
          ≤ available_size.get dir)
    ∧ (row.items.length ≠ 1 →
      (item_total_size item item_state row available_size dir).get dir
        = (match item.basis with
            | some basis => basis + (item_state.margin.sum).get dir
            | none => (item_state.min_size_with_margin).get dir)
          + extra_length item_state row) := by
  have hbase : ∀ v : Vec2,
      ((match item.basis with
        | some basis =>
          v.set dir (basis + (item_state.margin.sum).get dir)
        | none => v) : Vec2).get dir
      = (match item.basis with
          | some basis => basis + (item_state.margin.sum).get dir
          | none => v.get dir) := by
    intro v
    cases item.basis
    · rfl
    · simp [Vec2.get_set_self]
  constructor
  · intro h1
    rw [item_total_size]
    simp only [h1, eq_self_iff_true, if_true]
    rw [Vec2.get_set_self, Vec2.get_set_self, hbase]
    refine ⟨?_, ?_⟩
    · cases item.basis
      · rfl
      · rfl
    · cases item.basis
      · exact min_le_right _ _
      · exact min_le_right _ _
  · intro h1
    rw [item_total_size]
    simp only [if_neg h1]
    rw [Vec2.get_set_self, hbase]

/-- Claim C5 witness: a single-item row with a large basis is clamped to
the available length 50, while the same item in a two-item row keeps its
full 80 + 10 length. -/
theorem claim_C5_witness :
    (item_total_size (mk_item (some 80) none 5 5).config
        (mk_item (some 80) none 5 5)
        ⟨[mk_item (some 80) none 5 5], 90, 0, 0, 0, 0, none, none⟩
        ⟨50, 50⟩ 0).get 0 ≤ (⟨50, 50⟩ : Vec2).get 0
    ∧ (item_total_size (mk_item (some 80) none 5 5).config
        (mk_item (some 80) none 5 5)
        ⟨[mk_item (some 80) none 5 5, mk_item (some 80) none 5 5],
          190, 0, 0, 0, 0, none, none⟩
        ⟨50, 50⟩ 0).get 0
      = (match (mk_item (some 80) none 5 5).config.basis with
          | some basis =>
            basis + ((mk_item (some 80) none 5 5).margin.sum).get 0
          | none =>
            ((mk_item (some 80) none 5 5).min_size_with_margin).get 0)
        + extra_length (mk_item (some 80) none 5 5)
            ⟨[mk_item (some 80) none 5 5, mk_item (some 80) none 5 5],
              190, 0, 0, 0, 0, none, none⟩ :=
  ⟨(claim_C5_single_item_clamp (mk_item (some 80) none 5 5).config
      (mk_item (some 80) none 5 5)
      ⟨[mk_item (some 80) none 5 5], 90, 0, 0, 0, 0, none, none⟩
      ⟨50, 50⟩ 0).1 (by simp) |>.2,
   (claim_C5_single_item_clamp (mk_item (some 80) none 5 5).config
      (mk_item (some 80) none 5 5)
      ⟨[mk_item (some 80) none 5 5, mk_item (some 80) none 5 5],
        190, 0, 0, 0, 0, none, none⟩
      ⟨50, 50⟩ 0).2 (by simp)⟩

/-- Claim C6: a container pass issues no discard request when the built
snapshot equals the persisted one, issues a discard plus a repaint when
it differs, and returns the pass result to the caller either way. -/
theorem claim_C6_pass_stability {R : Type} (previous_state built_state :
    FlexState) (result : R) :
    (previous_state = built_state →
      show_inside_pass previous_state built_state result
        = (result, ⟨false, false⟩))
    ∧ (previous_state ≠ built_state →
      show_inside_pass previous_state built_state result
        = (result, ⟨true, true⟩))
    ∧ (show_inside_pass previous_state built_state result).1 = result := by
  refine ⟨fun h => ?_, fun h => ?_, rfl⟩
  · simp [show_inside_pass, show_inside_signals, h]
  · simp [show_inside_pass, show_inside_signals, h]

/-- Claim C6 witness: an unchanged snapshot issues no requests; a
snapshot that differs in one measured size issues discard and repaint. -/
theorem claim_C6_witness :
    show_inside_pass st_single st_single (5 : ℕ) = (5, ⟨false, false⟩)
    ∧ show_inside_pass st_single ⟨[], ⟨0, 0⟩⟩ (5 : ℕ) = (5, ⟨true, true⟩) :=
  ⟨(claim_C6_pass_stability st_single st_single 5).1 rfl,
   (claim_C6_pass_stability st_single ⟨[], ⟨0, 0⟩⟩ 5).2.1
     (by simp [st_single])⟩

/-- Claim C7: normal layout operations raise no error — every
unimplemented align-content policy produces exactly the `Normal` layout —
and the one fatal condition is reading the item state under the row cursor at an
in-row index at or beyond the computed membership of the row, which is an
assertion failure (`unwrap` panic); a row cursor past the computed rows is
instead handled by the graceful invisible-placeholder branch. -/
theorem claim_C7_error_handling :
    (∀ (self : Flex) (state : FlexState) (available_size gap : Vec2)
      (dir : Fin 2) (pos : Vec2) (ac : FlexAlignContent),
      ac ∈ [FlexAlignContent.Start, FlexAlignContent.End,
        FlexAlignContent.Center, FlexAlignContent.SpaceBetween,
        FlexAlignContent.SpaceAround] →
      ({ self with align_content := ac } : Flex).layout_rows state
          available_size gap dir pos
        = ({ self with align_content := FlexAlignContent.Normal } :
            Flex).layout_rows state available_size gap dir pos)
    ∧ (∀ (rows : List RowData) (current_row current_row_index : ℕ),
      fetch_cursor_item rows current_row current_row_index
          = FetchResult.panic
        ↔ ∃ row, rows.get? current_row = some row
            ∧ row.items.length ≤ current_row_index)
    ∧ (∀ (rows : List RowData) (current_row current_row_index : ℕ),
      rows.length ≤ current_row →
      fetch_cursor_item rows current_row current_row_index
        = FetchResult.fallback) := by
  refine ⟨?_, ?_, ?_⟩
  · intro self state available_size gap dir pos ac hac
    cases self
    simp only [List.mem_cons, List.mem_singleton] at hac
    rcases hac with rfl | rfl | rfl | rfl | rfl | h
    · rfl
    · rfl
    · rfl
    · rfl
    · rfl
    · simp at h
  · intro rows current_row current_row_index
    unfold fetch_cursor_item
    cases hrow : rows.get? current_row with
    | none => simp
    | some row =>
      cases hit : row.items[current_row_index]? with
      | none =>
        have hlen : row.items.length ≤ current_row_index :=
          List.getElem?_eq_none_iff.mp hit
        simp [hit, hlen]
      | some it =>
        have hlt : current_row_index < row.items.length := by
          rcases List.getElem?_eq_some.mp hit with ⟨h, _⟩
          exact h
        simp [hit]
        omega
  · intro rows current_row current_row_index h
    unfold fetch_cursor_item
    rw [List.get?_eq_none.mpr h]

/-- Claim C7 witness: a concrete unimplemented policy (`Start`) lays out
exactly like `Normal`; an in-row index past the one-item
membership is the panic; a row cursor past the computed rows takes the
graceful fallback. -/
theorem claim_C7_witness :
    ({ flex_wrap with align_content := FlexAlignContent.Start } :
        Flex).layout_rows st_single ⟨100, 60⟩ ⟨10, 10⟩ 0 ⟨0, 0⟩
      = ({ flex_wrap with align_content := FlexAlignContent.Normal } :
          Flex).layout_rows st_single ⟨100, 60⟩ ⟨10, 10⟩ 0 ⟨0, 0⟩
    ∧ (fetch_cursor_item [row_c4] 0 5 = FetchResult.panic
        ↔ ∃ row, [row_c4].get? 0 = some row ∧ row.items.length ≤ 5)
    ∧ fetch_cursor_item [row_c4] 3 0 = FetchResult.fallback :=
  ⟨claim_C7_error_handling.1 flex_wrap st_single ⟨100, 60⟩ ⟨10, 10⟩ 0 ⟨0, 0⟩
      FlexAlignContent.Start (by simp),
   claim_C7_error_handling.2.1 [row_c4] 0 5,
   claim_C7_error_handling.2.2 [row_c4] 3 0 (by simp)⟩

/-- Claim C8: `shift_vec i i v` leaves the slice unchanged for every
in-range index `i`; `shift_vec s t v` with `s < t ≤ len` rotates the
half-open sub-slice `[s, t)` left by one; concretely
`shift_vec 0 2 [1, 2, 3, 4]` yields `[2, 1, 3, 4]`. -/
theorem claim_C8_shift_vec_behavior {α : Type} (v : List α) (i s t : ℕ)
    (hi : i ≤ v.length) (hst : s < t) (ht : t ≤ v.length) :
    shift_vec i i v = some v
    ∧ shift_vec s t v
        = some (v.take s ++ ((v.drop s).take (t - s)).rotate 1 ++ v.drop t)
    ∧ shift_vec 0 2 [1, 2, 3, 4] = some [2, 1, 3, 4] := by
  refine ⟨?_, ?_, by decide⟩
  · rw [shift_vec, if_pos ⟨le_refl i, hi⟩]
    simp
  · rw [shift_vec, if_pos ⟨le_of_lt hst, ht⟩]
    have hlen : ((v.drop s).take (t - s)).length = min (t - s) (v.length - s) := by
      simp
    have hone : min 1 ((v.drop s).take (t - s)).length = 1 := by
      rw [hlen]
      omega
    simp only [hone]

/-- Claim C8 witness: shifting 3 → 3 in a three-element slice is the
identity, shifting 0 → 2 rotates the first two elements, and the specification
`[1, 2, 3, 4]` example holds. -/
theorem claim_C8_witness :
    shift_vec 3 3 [10, 20, 30] = some [10, 20, 30]
    ∧ shift_vec 0 2 [10, 20, 30] = some [20, 10, 30]
    ∧ shift_vec 0 2 [1, 2, 3, 4] = some [2, 1, 3, 4] := by
  have h := claim_C8_shift_vec_behavior [10, 20, 30] 3 0 2 (by decide)
    (by decide) (by decide)
  exact ⟨h.1, by rw [h.2.1]; decide, h.2.2⟩

/-- Claim C10: `shift_vec` does not panic exactly when
`source ≤ target ≤ len` or `target ≤ source < len` (in particular
`shift_vec len len v` is a non-panicking no-op), and whenever it does not
panic the result is a permutation of the input. -/
theorem claim_C10_shift_vec_safety {α : Type} (v : List α) (s t : ℕ) :
    ((shift_vec s t v).isSome
      ↔ (s ≤ t ∧ t ≤ v.length) ∨ (t ≤ s ∧ s < v.length))
    ∧ (∀ w, shift_vec s t v = some w → w.Perm v)
    ∧ shift_vec v.length v.length v = some v := by
  refine ⟨?_, ?_, ?_⟩
  · rw [shift_vec]
    by_cases h1 : s ≤ t ∧ t ≤ v.length
    · rw [if_pos h1]
      simp only [Option.isSome_some, true_iff]
      exact Or.inl h1
    · rw [if_neg h1]
      by_cases h2 : t ≤ s + 1 ∧ s + 1 ≤ v.length
      · rw [if_pos h2]
        simp only [Option.isSome_some, true_iff]
        omega
      · rw [if_neg h2]
        simp only [Option.isSome_none, Bool.false_eq_true, false_iff]
        omega
  · intro w hw
    rw [shift_vec] at hw
    by_cases h1 : s ≤ t ∧ t ≤ v.length
    · rw [if_pos h1] at hw
      simp only [Option.some.injEq] at hw
      have hsplit : v.take s ++ (v.drop s).take (t - s) ++ v.drop t = v := by
        have hts : s + (t - s) = t := by omega
        rw [← List.take_add, hts, List.take_append_drop]
      have hp : (v.take s ++ ((v.drop s).take (t - s)).rotate
          (min 1 ((v.drop s).take (t - s)).length) ++ v.drop t).Perm
          (v.take s ++ (v.drop s).take (t - s) ++ v.drop t) :=
        List.Perm.append (List.Perm.append (List.Perm.refl _)
          (List.rotate_perm _ _)) (List.Perm.refl _)
      rw [← hw]
      exact hp.trans (by rw [hsplit])
    · rw [if_neg h1] at hw
      by_cases h2 : t ≤ s + 1 ∧ s + 1 ≤ v.length
      · rw [if_pos h2] at hw
        simp only [Option.some.injEq] at hw
        have hsplit : v.take t ++ (v.drop t).take (s + 1 - t)
            ++ v.drop (s + 1) = v := by
          have hts : t + (s + 1 - t) = s + 1 := by omega
          rw [← List.take_add, hts, List.take_append_drop]
        have hp : (v.take t ++ ((v.drop t).take (s + 1 - t)).rotate
            (((v.drop t).take (s + 1 - t)).length
              - min 1 ((v.drop t).take (s + 1 - t)).length)
            ++ v.drop (s + 1)).Perm
            (v.take t ++ (v.drop t).take (s + 1 - t) ++ v.drop (s + 1)) :=
          List.Perm.append (List.Perm.append (List.Perm.refl _)
            (List.rotate_perm _ _)) (List.Perm.refl _)
        rw [← hw]
        exact hp.trans (by rw [hsplit])
      · rw [if_neg h2] at hw
        exact Option.noConfusion hw
  · rw [shift_vec, if_pos ⟨le_refl _, le_refl _⟩]
    simp

/-- Claim C10 witness: shifting 1 → 0 in `[1, 2]` does not panic, its
result `[2, 1]` is a permutation of the input, and
`shift_vec 2 2 [1, 2]` is the non-panicking identity. -/
theorem claim_C10_witness :
    (shift_vec 1 0 [1, 2]).isSome
    ∧ ([2, 1] : List ℕ).Perm [1, 2]
    ∧ shift_vec 2 2 [1, 2] = some [1, 2] :=
  ⟨(claim_C10_shift_vec_safety [1, 2] 1 0).1.mpr (Or.inr (by decide)),
   (claim_C10_shift_vec_safety [1, 2] 1 0).2.1 [2, 1] (by decide),
   (claim_C10_shift_vec_safety [1, 2] 2 2).2.2⟩

/-- Claim C9 (amended): the rounding computation is idempotent in exact
arithmetic — `round_exact (round_exact x) = round_exact x` for every
rational `x` — and the embedded `f32` rounding maps zero (either IEEE
zero) to plus zero; under actual `f32` arithmetic, double rounding breaks
idempotence for some finite inputs. -/
theorem claim_C9_round_idempotent_exact :
    (∀ x : ℚ, F32.round_exact (F32.round_exact x) = F32.round_exact x)
    ∧ F32.round 0 = 0 := by
  have hint : ∀ m : ℤ, F32.round_half_away (m : ℚ) = m := by
    intro m
    rw [F32.round_half_away]
    by_cases hm : 0 ≤ (m : ℚ)
    · rw [if_pos hm]
      rw [Int.floor_int_add]
      norm_num
    · rw [if_neg hm]
      rw [show (-(m : ℚ) + 1 / 2) = ((-m : ℤ) : ℚ) + (1 / 2 : ℚ) by
        push_cast; ring]
      rw [Int.floor_int_add]
      norm_num
  have h0 : F32.round_half_away 0 = 0 := by simpa using hint 0
  constructor
  · intro x
    rw [F32.round_exact, F32.round_exact]
    by_cases hc : ((F32.round_half_away (x * 1000) : ℤ) : ℚ) / 1000 = 0
    · rw [if_pos hc]
      norm_num [h0]
    · rw [if_neg hc]
      have harg : ((F32.round_half_away (x * 1000) : ℤ) : ℚ) / 1000 * 1000
          = ((F32.round_half_away (x * 1000) : ℤ) : ℚ) := by
        field_simp
      rw [harg, hint]
      rw [if_neg hc]
  · have t0 : F32.fl 0 = 0 := by rw [F32.fl, if_pos rfl]
    rw [F32.round]
    norm_num [t0, h0]

/-- Claim C9, counterexample to the claim as stated: for the finite `f32`
value `x = 8374.4404296875 = 8575427/1024`, `round x = 8374.44140625` but
`round (round x) = 8374.4423828125`: the multiply-round-divide pipeline in
`f32` double-rounds, so the rounding function is not idempotent on all
finite `f32` inputs. -/
theorem claim_C9_counterexample :
    F32.round (F32.round ((8575427 : ℚ) / 1024))
      ≠ F32.round ((8575427 : ℚ) / 1024) := by
  have t1 : (Int.toNat 8374440) = 8374440 := rfl
  have t2 : (Int.toNat 8374) = 8374 := rfl
  have t3 : (Int.toNat 8374441) = 8374441 := rfl
  have l1 : Nat.log2 8374440 = 22 := by norm_num [Nat.log2]
  have l2 : Nat.log2 8374 = 13 := by norm_num [Nat.log2]
  have l3 : Nat.log2 8374441 = 22 := by norm_num [Nat.log2]
  norm_num [F32.round, F32.fl, F32.exp2floor, F32.pow2, F32.rne,
    F32.round_half_away, t1, t2, t3, l1, l2, l3]
